import Mathlib

/-!
Verification of the URL feature-extraction / training / export pipeline
(`backend/training/train_model.py` and `backend/training/convert_to_tflite.py`).

Python strings are modelled as lists of characters (`PyStr`), matching
Python's code-point view of `str`.  The relevant library functions
(`urllib.parse.urlparse`, `ipaddress.ip_address`, CPython 3.11+ semantics)
are embedded faithfully below; every definition carries a comment pointing
at the Python behaviour it transcribes.
-/

namespace UrlPhish

/-- A Python `str`, viewed as its sequence of code points. -/
abbrev PyStr := List Char

/-- `if b then 1 else 0` — Python's `1 if cond else 0`. -/
def b2n (b : Bool) : Nat := if b then 1 else 0

/-- Python `sub in s` (contiguous substring test).  `'' in s` is `True`. -/
def pyIn (sub : PyStr) : PyStr → Bool
  | [] => sub.isEmpty
  | c :: s => sub.isPrefixOf (c :: s) || pyIn sub s

/-- Python `s.split(sep)` for a single-character separator. -/
def pySplitC (sep : Char) : PyStr → List PyStr
  | [] => [[]]
  | c :: s =>
    if c = sep then [] :: pySplitC sep s
    else
      match pySplitC sep s with
      | [] => [[c]]
      | t :: ts => (c :: t) :: ts

/-- Python `s.find(c)`: index of the first occurrence (`None` for `-1`). -/
def pyFindC (c : Char) : PyStr → Option Nat
  | [] => none
  | a :: s => if a = c then some 0 else (pyFindC c s).map (· + 1)

/-- Python `s.rfind(c)`: index of the last occurrence (`None` for `-1`). -/
def pyRFindC (c : Char) (s : PyStr) : Option Nat :=
  match pyFindC c s.reverse with
  | none => none
  | some i => some (s.length - 1 - i)

/-- Python `s.find(c, start)`: first occurrence at index `start` or later. -/
def pyFindCFrom (c : Char) (start : Nat) (s : PyStr) : Option Nat :=
  (pyFindC c (s.drop start)).map (· + start)

/-- Python `s.partition(c)` restricted to the pieces the parser uses:
the part before the first occurrence of `c` and the part after it
(`(s, [])` when `c` does not occur, matching how the parser guards its
calls to `partition`). -/
def pyPartition (sep : Char) : PyStr → PyStr × PyStr
  | [] => ([], [])
  | c :: s =>
    if c = sep then ([], s)
    else
      let p := pyPartition sep s
      (c :: p.1, p.2)

/-! ### `ipaddress.ip_address` (validity only)

`featureExtraction` only observes whether `ipaddress.ip_address(domain)`
raises, so we embed the *validity* predicate of CPython's
`IPv4Address`/`IPv6Address` string constructors. -/

/-- One dotted-quad octet, per `IPv4Address._parse_octet`: non-empty, ASCII
digits only, at most 3 characters, no leading zero (except `"0"` itself),
value at most 255. -/
def validOctet (o : PyStr) : Bool :=
  !o.isEmpty && o.all Char.isDigit && o.length ≤ 3 &&
    (o.headD '0' ≠ '0' || o.length = 1) &&
    o.foldl (fun n c => n * 10 + (c.toNat - 48)) 0 ≤ 255

/-- `ipaddress.IPv4Address(s)` succeeds: no `/`, exactly 4 valid octets
separated by `.`. -/
def isValidIPv4 (s : PyStr) : Bool :=
  if pyIn ['/'] s then false
  else
    let octets := pySplitC '.' s
    octets.length = 4 && octets.all validOctet

/-- ASCII hexadecimal digit. -/
def isHexDigitC (c : Char) : Bool :=
  c.isDigit || ('a' ≤ c && c ≤ 'f') || ('A' ≤ c && c ≤ 'F')

/-- One IPv6 hextet, per `IPv6Address._parse_hextet`: non-empty, hex digits
only, at most 4 characters. -/
def validHextet (h : PyStr) : Bool :=
  !h.isEmpty && h.all isHexDigitC && h.length ≤ 4

/-- Step of `IPv6Address._ip_int_from_string`: when the last `:`-part
contains a `.` it must be a valid IPv4 literal and is replaced by two
(always valid, non-empty) hextets produced from its 32-bit value. -/
def expandV4Tail (parts : List PyStr) : Option (List PyStr) :=
  match parts.getLast? with
  | none => none
  | some last =>
    if pyIn ['.'] last then
      if isValidIPv4 last then some (parts.dropLast ++ [['0'], ['0']])
      else none
    else some parts

/-- The `::`-placement and hextet checks of
`IPv6Address._ip_int_from_string`, applied after the IPv4-tail expansion:
at most 9 parts, at most one empty part strictly inside, an empty first or
last part only immediately next to the `::`, at least one skipped group,
and every remaining part a valid hextet. -/
def ipv6PartsCheck (parts : List PyStr) : Bool :=
  if parts.length > 9 then false
  else
    let mids := (parts.drop 1).dropLast
    match mids.findIdx? List.isEmpty with
    | none =>
      parts.length = 8 && !(parts.headD []).isEmpty && !(parts.getLastD []).isEmpty &&
        parts.all validHextet
    | some i =>
      let skip := i + 1
      if (mids.drop (i + 1)).any List.isEmpty then false
      else
        let headEmpty := (parts.headD []).isEmpty
        let lastEmpty := (parts.getLastD []).isEmpty
        if headEmpty && skip ≠ 1 then false
        else if lastEmpty && skip ≠ parts.length - 2 then false
        else
          let hi := if headEmpty then skip - 1 else skip
          let lo := if lastEmpty then parts.length - skip - 2 else parts.length - skip - 1
          hi + lo ≤ 7 &&
            (parts.take hi).all validHextet &&
            (parts.drop (parts.length - lo)).all validHextet

/-- `IPv6Address._ip_int_from_string(s)` succeeds (no scope id): at least
3 colon-separated parts, optional IPv4 tail, then the `::` / hextet
checks. -/
def isValidIPv6NoScope (s : PyStr) : Bool :=
  let parts := pySplitC ':' s
  if parts.length < 3 then false
  else
    match expandV4Tail parts with
    | none => false
    | some parts2 => ipv6PartsCheck parts2

/-- `ipaddress.IPv6Address(s)` succeeds: no `/`; an optional `%scope`
suffix (non-empty, without a further `%`) is split off first
(`_split_scope_id`); the rest must pass `_ip_int_from_string`. -/
def isValidIPv6 (s : PyStr) : Bool :=
  if pyIn ['/'] s then false
  else
    match pyFindC '%' s with
    | none => isValidIPv6NoScope s
    | some i =>
      let scope := s.drop (i + 1)
      !scope.isEmpty && !pyIn ['%'] scope && isValidIPv6NoScope (s.take i)

/-- `ipaddress.ip_address(s)` succeeds for the string `s`: it tries
`IPv4Address` first, then `IPv6Address`. -/
def is_ip_address (s : PyStr) : Bool :=
  isValidIPv4 s || isValidIPv6 s

/-! ### `urllib.parse.urlparse` (CPython 3.11+)

`urlsplit` strips leading C0-control/space characters, removes every tab,
CR and LF, splits off the scheme (first char an ASCII letter, the rest
scheme characters, lowercased), then — when the remainder starts with
`//` — the netloc up to the next `/`, `?` or `#`.  Mismatched square
brackets in the netloc, or a bracketed host that is neither a valid
IPvFuture nor a valid IPv6 address, raise `ValueError`.  Fragment and
query are split off with `#` and `?`.  (`_checknetloc`'s NFKC check never
fires for ASCII netlocs and is modelled as a no-op.)  `urlparse`
additionally splits `;params` off the path when the scheme uses
parameters. -/

/-- WHATWG C0 control or space (code point at most 0x20). -/
def isC0OrSpace (c : Char) : Bool := c.toNat ≤ 32

/-- `_UNSAFE_URL_BYTES_TO_REMOVE`: tab, CR, LF. -/
def isUnsafeByte (c : Char) : Bool := c = '\t' || c = '\r' || c = '\n'

/-- Member of `scheme_chars`: ASCII letter, digit, `+`, `-` or `.`. -/
def isSchemeChar (c : Char) : Bool :=
  c.isAlpha || c.isDigit || c = '+' || c = '-' || c = '.'

/-- The scheme-splitting step of `urlsplit`: if a `:` occurs at a positive
index, the first character is an ASCII letter and everything before the
`:` is a scheme character, the scheme is that part lowercased and the
rest follows the `:`; otherwise the scheme is empty. -/
def splitScheme (url : PyStr) : PyStr × PyStr :=
  match pyFindC ':' url with
  | none => ([], url)
  | some i =>
    if 0 < i && (url.headD ' ').isAlpha && (url.take i).all isSchemeChar then
      ((url.take i).map Char.toLower, url.drop (i + 1))
    else ([], url)

/-- `_splitnetloc`: the netloc runs until the first `/`, `?` or `#`. -/
def splitNetlocF (s : PyStr) : PyStr × PyStr :=
  (s.takeWhile (fun c => !(c = '/' || c = '?' || c = '#')),
   s.dropWhile (fun c => !(c = '/' || c = '?' || c = '#')))

/-- `_check_bracketed_host` (CPython 3.11+): a host starting with `v` must
match `\Av[a-fA-F0-9]+\..+\Z`; otherwise it must be accepted by
`ip_address` *and* not be an IPv4 address. -/
def checkBracketedHost (h : PyStr) : Bool :=
  match h with
  | 'v' :: t =>
    let hex := t.takeWhile isHexDigitC
    let rest := t.dropWhile isHexDigitC
    !hex.isEmpty &&
      (match rest with
       | '.' :: r => !r.isEmpty && r.all (fun c => c ≠ '\n')
       | _ => false)
  | _ => !isValidIPv4 h && isValidIPv6 h

/-- Result of `urlsplit` (fields of `SplitResult` that the program reads). -/
structure SplitRes where
  scheme : PyStr
  netloc : PyStr
  path : PyStr
  query : PyStr
  fragment : PyStr
deriving DecidableEq

/-- The fragment/query steps shared by both branches of `urlsplit`. -/
def splitFQ (scheme netloc rest : PyStr) : SplitRes :=
  let pf := pyPartition '#' rest
  let pq := pyPartition '?' pf.1
  ⟨scheme, netloc, pq.1, pq.2, pf.2⟩

/-- `urllib.parse.urlsplit(url)`; `Except.error ()` is a raised
`ValueError`. -/
def urlsplitE (url0 : PyStr) : Except Unit SplitRes :=
  let url1 := url0.dropWhile isC0OrSpace
  let url := url1.filter (fun c => !isUnsafeByte c)
  let sp := splitScheme url
  if (sp.2.take 2) = ['/', '/'] then
    let nl := splitNetlocF (sp.2.drop 2)
    let hasL := pyIn ['['] nl.1
    let hasR := pyIn [']'] nl.1
    if (hasL && !hasR) || (hasR && !hasL) then .error ()
    else if hasL && hasR &&
        !checkBracketedHost (pyPartition ']' (pyPartition '[' nl.1).2).1 then
      .error ()
    else .ok (splitFQ sp.1 nl.1 nl.2)
  else .ok (splitFQ sp.1 [] sp.2)

/-- Result of `urlparse` (fields the program reads, plus params). -/
structure ParseRes where
  scheme : PyStr
  netloc : PyStr
  path : PyStr
  params : PyStr
  query : PyStr
  fragment : PyStr
deriving DecidableEq

/-- `urllib.parse.uses_params`. -/
def uses_params : List PyStr :=
  [[], "ftp".toList, "hdl".toList, "prospero".toList, "http".toList,
   "imap".toList, "https".toList, "shttp".toList, "rtsp".toList,
   "rtspu".toList, "sip".toList, "sips".toList, "mms".toList,
   "sftp".toList, "tel".toList]

/-- `_splitparams` (only ever called with `;` present in `url`): split at
the first `;` at or after the last `/` (or the first `;` overall when the
path has no `/`). -/
def splitparams (url : PyStr) : PyStr × PyStr :=
  let i? : Option Nat :=
    if pyIn ['/'] url then
      match pyRFindC '/' url with
      | some j => pyFindCFrom ';' j url
      | none => none
    else pyFindC ';' url
  match i? with
  | none => (url, [])
  | some i => (url.take i, url.drop (i + 1))

/-- `urllib.parse.urlparse(url)`. -/
def urlparseE (url : PyStr) : Except Unit ParseRes :=
  match urlsplitE url with
  | .error e => .error e
  | .ok s =>
    if uses_params.contains s.scheme && pyIn [';'] s.path then
      let up := splitparams s.path
      .ok ⟨s.scheme, s.netloc, up.1, up.2, s.query, s.fragment⟩
    else .ok ⟨s.scheme, s.netloc, s.path, [], s.query, s.fragment⟩

/-! ### `featureExtraction` (train_model.py lines 30–108) -/

/-- `featureExtraction(url)`: the nine features in source order, or the
all-zero vector when `urlparse` raises.  (`ipaddress.ip_address` sits in
its own inner `try`, so an invalid address only makes `have_ip` 0; every
other step is exception-free on strings, so the outer `except` fires
exactly on `urlparse` errors.) -/
def featureExtractionL (url : PyStr) : List Nat :=
  match urlparseE url with
  | .error _ => [0, 0, 0, 0, 0, 0, 0, 0, 0]
  | .ok p =>
    [p.netloc.length,
     b2n (is_ip_address p.netloc),
     b2n (pyIn ['@'] url),
     url.length,
     ((pySplitC '/' p.path).filter (fun x => !x.isEmpty)).length,
     b2n (pyIn ['/', '/'] p.path),
     b2n (pyIn "https".toList p.scheme),
     b2n (pyIn "tinyurl".toList p.netloc || pyIn "bit.ly".toList p.netloc),
     b2n (pyIn ['-'] p.netloc)]

/-- `featureExtraction` on a Lean string. -/
def featureExtraction (url : String) : List Nat :=
  featureExtractionL url.toList

/-! ### Supporting lemmas about the Python string primitives -/

theorem isPrefixOf_eq_true (l₁ l₂ : PyStr) : l₁.isPrefixOf l₂ = true ↔ l₁ <+: l₂ := by
  induction l₁ generalizing l₂ with
  | nil => simp [List.isPrefixOf]
  | cons a t ih =>
    cases l₂ with
    | nil => simp [List.isPrefixOf]
    | cons b u =>
      rw [List.isPrefixOf, List.cons_prefix_cons, Bool.and_eq_true, beq_iff_eq, ih]

/-- Python `sub in s` agrees with contiguous-sublist containment. -/
theorem pyIn_iff (sub s : PyStr) : pyIn sub s = true ↔ sub <:+: s := by
  induction s with
  | nil => simp [pyIn, List.isEmpty_iff, List.infix_nil]
  | cons c t ih =>
    rw [pyIn, Bool.or_eq_true, ih, isPrefixOf_eq_true, List.infix_cons_iff]

/-- Python `c in s` for a single character is list membership. -/
theorem pyIn_single_iff (c : Char) (s : PyStr) : pyIn [c] s = true ↔ c ∈ s := by
  rw [pyIn_iff]
  constructor
  · rintro ⟨u, v, rfl⟩
    simp
  · intro hm
    obtain ⟨u, v, rfl⟩ := List.append_of_mem hm
    exact ⟨u, v, by simp⟩

theorem pyIn_eq_decide (sub s : PyStr) : pyIn sub s = decide (sub <:+: s) := by
  by_cases hm : sub <:+: s
  · simp [hm, (pyIn_iff sub s).mpr hm]
  · rw [decide_eq_false hm, Bool.eq_false_iff]
    exact fun hc => hm ((pyIn_iff sub s).mp hc)

theorem pyIn_single_eq_decide (c : Char) (s : PyStr) : pyIn [c] s = decide (c ∈ s) := by
  by_cases hm : c ∈ s
  · simp [hm, (pyIn_single_iff c s).mpr hm]
  · rw [decide_eq_false hm, Bool.eq_false_iff]
    exact fun hc => hm ((pyIn_single_iff c s).mp hc)

theorem b2n_decide (P : Prop) [Decidable P] : b2n (decide P) = if P then 1 else 0 := by
  by_cases h : P <;> simp [b2n, h]

theorem b2n_decide_or (P Q : Prop) [Decidable P] [Decidable Q] :
    b2n (decide P || decide Q) = if P ∨ Q then 1 else 0 := by
  by_cases hp : P <;> by_cases hq : Q <;> simp [b2n, hp, hq]

theorem b2n_binary (b : Bool) : (b2n b == 0 || b2n b == 1) = true := by
  cases b <;> rfl

theorem b2n_eq_ite (b : Bool) : b2n b = if b = true then 1 else 0 := by
  cases b <;> simp [b2n]

theorem pyFindC_eq_none (c : Char) (s : PyStr) : pyFindC c s = none ↔ c ∉ s := by
  induction s with
  | nil => simp [pyFindC]
  | cons a t ih =>
    rw [pyFindC]
    by_cases h : a = c
    · subst h
      simp
    · rw [if_neg h]
      simp only [Option.map_eq_none', ih, List.mem_cons]
      constructor
      · intro hnt hor
        rcases hor with h1 | h1
        · exact h h1.symm
        · exact hnt h1
      · exact fun hn hm => hn (Or.inr hm)

theorem pySplitC_ne_nil (sep : Char) (s : PyStr) : pySplitC sep s ≠ [] := by
  cases s with
  | nil => simp [pySplitC]
  | cons a t =>
    rw [pySplitC]
    by_cases h : a = sep
    · simp [h]
    · simp only [h, if_false]
      cases pySplitC sep t <;> simp

theorem pySplitC_of_not_mem (sep : Char) (s : PyStr) (h : sep ∉ s) :
    pySplitC sep s = [s] := by
  induction s with
  | nil => rfl
  | cons a t ih =>
    have ha : ¬ a = sep := fun he => h (he ▸ List.mem_cons_self a t)
    have ht : sep ∉ t := fun hm => h (List.mem_cons_of_mem a hm)
    rw [pySplitC, if_neg ha, ih ht]

theorem pySplitC_append_sep (sep : Char) (a b : PyStr) (ha : sep ∉ a) :
    pySplitC sep (a ++ sep :: b) = a :: pySplitC sep b := by
  induction a with
  | nil => simp [pySplitC]
  | cons x xs ih =>
    have hx : ¬ x = sep := fun he => ha (he ▸ List.mem_cons_self x xs)
    have hxs : sep ∉ xs := fun hm => ha (List.mem_cons_of_mem x hm)
    rw [List.cons_append, pySplitC, if_neg hx, ih hxs]

/-- A character distinct from the separator survives into some split part. -/
theorem mem_of_mem_pySplitC (sep c : Char) (hne : c ≠ sep) (s : PyStr) (hc : c ∈ s) :
    ∃ p ∈ pySplitC sep s, c ∈ p := by
  induction s with
  | nil => cases hc
  | cons a t ih =>
    by_cases h : a = sep
    · subst h
      have hct : c ∈ t := by
        rcases List.mem_cons.mp hc with h1 | h1
        · exact absurd h1 hne
        · exact h1
      obtain ⟨p, hp, hcp⟩ := ih hct
      exact ⟨p, by simp [pySplitC, hp], hcp⟩
    · rw [pySplitC, if_neg h]
      rcases hsp : pySplitC sep t with _ | ⟨t₀, ts⟩
      · exact absurd hsp (pySplitC_ne_nil sep t)
      · rcases List.mem_cons.mp hc with h1 | h1
        · exact ⟨a :: t₀, by simp, by simp [h1]⟩
        · obtain ⟨p, hp, hcp⟩ := ih h1
          rw [hsp] at hp
          rcases List.mem_cons.mp hp with h2 | h2
          · exact ⟨a :: t₀, by simp, by simp [h2 ▸ hcp]⟩
          · exact ⟨p, by simp [h2], hcp⟩

/-- A string containing `:` is never a valid IPv4 literal. -/
theorem isValidIPv4_eq_false_of_colon (s : PyStr) (hc : ':' ∈ s) :
    isValidIPv4 s = false := by
  rw [isValidIPv4]
  split
  · rfl
  · obtain ⟨p, hp, hcp⟩ := mem_of_mem_pySplitC '.' ':' (by decide) s hc
    have hdig : p.all Char.isDigit = false := by
      rw [Bool.eq_false_iff]
      intro hall
      have := List.all_eq_true.mp hall ':' hcp
      simp at this
    have hoct : validOctet p = false := by
      simp [validOctet, hdig]
    have : (pySplitC '.' s).all validOctet = false :=
      List.all_eq_false.mpr ⟨p, hp, by simp [hoct]⟩
    simp [this]

/-- A `host:port` authority (single colon, no percent sign) is never a
valid IPv6 literal. -/
theorem isValidIPv6_eq_false_of_port (host port : PyStr)
    (hhost : ':' ∉ host) (hport : ':' ∉ port) (hpc : '%' ∉ host ++ ':' :: port) :
    isValidIPv6 (host ++ ':' :: port) = false := by
  rw [isValidIPv6]
  split
  · rfl
  · rw [(pyFindC_eq_none '%' (host ++ ':' :: port)).mpr hpc]
    rw [isValidIPv6NoScope, pySplitC_append_sep ':' host port hhost,
      pySplitC_of_not_mem ':' port hport]
    simp

/-! ### Claim-level definitions -/

/-- `urlparse` succeeded (no exception reached the outer `except`). -/
def exceptOk : Except Unit ParseRes → Bool
  | .ok _ => true
  | .error _ => false

/-- Entries at the 1-indexed positions 2, 3, 6, 7, 8, 9 (`have_ip`,
`have_at`, `redirection`, `https_domain`, `tiny_url`, `prefix_suffix`)
are each exactly 0 or 1. -/
def binaryEntries (v : List Nat) : Bool :=
  [1, 2, 5, 6, 7, 8].all fun i => v.getD i 0 == 0 || v.getD i 0 == 1

/-- The output vector as the specification describes it, entry by entry:
[domain_length, have_ip, have_at, url_length, url_depth, redirection,
https_domain, tiny_url, prefix_suffix], with each indicator phrased
through the corresponding predicate on the parsed components. -/
def specVector (url : PyStr) (p : ParseRes) : List Nat :=
  [p.netloc.length,
   if is_ip_address p.netloc then 1 else 0,
   if '@' ∈ url then 1 else 0,
   url.length,
   ((pySplitC '/' p.path).filter fun seg => !seg.isEmpty).length,
   if ['/', '/'] <:+: p.path then 1 else 0,
   if "https".toList <:+: p.scheme then 1 else 0,
   if ("tinyurl".toList <:+: p.netloc ∨ "bit.ly".toList <:+: p.netloc) then 1 else 0,
   if '-' ∈ p.netloc then 1 else 0]

end UrlPhish

deriving instance DecidableEq for Except

namespace UrlPhish

/-! ### Claims C1, C2, C3, C9, C10 -/

/-- C1: for every input string, `featureExtraction` returns a list of
exactly 9 entries, and whenever URL parsing succeeds the entries at
positions 2, 3, 6, 7, 8, 9 are each exactly 0 or 1. -/
theorem featureExtraction_length_and_binary (url : PyStr) :
    (featureExtractionL url).length = 9 ∧
    (exceptOk (urlparseE url) = true → binaryEntries (featureExtractionL url) = true) := by
  cases h : urlparseE url with
  | error e =>
    refine ⟨by simp [featureExtractionL, h], ?_⟩
    simp [exceptOk, h]
  | ok p =>
    refine ⟨by simp [featureExtractionL, h], fun _ => ?_⟩
    simp [featureExtractionL, h, binaryEntries, b2n_binary]

/-- C1 witness: a concrete successfully-parsed URL. -/
theorem featureExtraction_length_and_binary_witness :
    exceptOk (urlparseE ("http://a-b.com/x".toList)) = true ∧
    (featureExtractionL ("http://a-b.com/x".toList)).length = 9 ∧
    binaryEntries (featureExtractionL ("http://a-b.com/x".toList)) = true :=
  ⟨by decide, (featureExtraction_length_and_binary _).1,
    (featureExtraction_length_and_binary _).2 (by decide)⟩

/-- C2: whenever parsing succeeds, `featureExtraction` returns exactly
the vector [domain_length, have_ip, have_at, url_length, url_depth,
redirection, https_domain, tiny_url, prefix_suffix], with each feature
characterised as the specification states it. -/
theorem featureExtraction_matches_specVector (url : PyStr) (p : ParseRes)
    (h : urlparseE url = .ok p) :
    featureExtractionL url = specVector url p := by
  rw [featureExtractionL, h, specVector]
  simp only [pyIn_single_eq_decide]
  simp only [pyIn_eq_decide, b2n_decide, b2n_decide_or, b2n_eq_ite]
  simp only [Bool.or_eq_true, decide_eq_true_eq]

/-- C2 witness: a concrete successfully-parsed URL. -/
theorem featureExtraction_matches_specVector_witness :
    urlparseE ("http://a-b.com/x".toList)
        = .ok ⟨"http".toList, "a-b.com".toList, "/x".toList, [], [], []⟩ ∧
    featureExtractionL ("http://a-b.com/x".toList)
        = specVector ("http://a-b.com/x".toList)
            ⟨"http".toList, "a-b.com".toList, "/x".toList, [], [], []⟩ :=
  ⟨by decide, featureExtraction_matches_specVector _ _ (by decide)⟩

/-- C3: whenever URL parsing raises, `featureExtraction` returns exactly
the all-zero 9-vector; no partial vector is ever produced. -/
theorem featureExtraction_zero_on_parse_error (url : PyStr) (e : Unit)
    (h : urlparseE url = .error e) :
    featureExtractionL url = [0, 0, 0, 0, 0, 0, 0, 0, 0] := by
  rw [featureExtractionL, h]

/-- C3 witness: `"http://["` makes `urlsplit` raise (mismatched bracket). -/
theorem featureExtraction_zero_on_parse_error_witness :
    urlparseE ("http://[".toList) = .error () ∧
    featureExtractionL ("http://[".toList) = [0, 0, 0, 0, 0, 0, 0, 0, 0] :=
  ⟨by decide, featureExtraction_zero_on_parse_error _ () (by decide)⟩

/-- C9: on the empty string, parsing succeeds (every component empty) and
every feature evaluates to 0 — the all-zero vector is reachable through
the normal success path, so it does not imply a parse failure. -/
theorem featureExtraction_empty_success :
    urlparseE [] = .ok ⟨[], [], [], [], [], []⟩ ∧
    featureExtractionL [] = [0, 0, 0, 0, 0, 0, 0, 0, 0] :=
  ⟨by decide, by decide⟩

/-- C10: for a URL whose authority is `host:port` (a single colon, no
percent sign), `have_ip` is 0 — the strict address parse sees the whole
authority, port included — even when the host alone is a valid IP
literal. -/
theorem have_ip_zero_with_port (url : PyStr) (p : ParseRes) (host port : PyStr)
    (hp : urlparseE url = .ok p)
    (hs : p.netloc = host ++ ':' :: port)
    (hhost : ':' ∉ host) (hport : ':' ∉ port) (hpc : '%' ∉ p.netloc)
    (_hip : is_ip_address host = true) :
    (featureExtractionL url).getD 1 0 = 0 := by
  rw [featureExtractionL, hp, List.getD_cons_succ, List.getD_cons_zero]
  rw [hs] at hpc ⊢
  have h4 : isValidIPv4 (host ++ ':' :: port) = false :=
    isValidIPv4_eq_false_of_colon _ (by simp)
  have h6 : isValidIPv6 (host ++ ':' :: port) = false :=
    isValidIPv6_eq_false_of_port host port hhost hport hpc
  simp [is_ip_address, h4, h6, b2n]

/-- C10 witness: `http://1.2.3.4:80/`, whose host part alone is a valid
IPv4 literal. -/
theorem have_ip_zero_with_port_witness :
    urlparseE ("http://1.2.3.4:80/".toList)
        = .ok ⟨"http".toList, "1.2.3.4:80".toList, "/".toList, [], [], []⟩ ∧
    "1.2.3.4:80".toList = "1.2.3.4".toList ++ ':' :: "80".toList ∧
    is_ip_address ("1.2.3.4".toList) = true ∧
    (featureExtractionL ("http://1.2.3.4:80/".toList)).getD 1 0 = 0 :=
  ⟨by decide, by decide, by decide,
    have_ip_zero_with_port ("http://1.2.3.4:80/".toList)
      ⟨"http".toList, "1.2.3.4:80".toList, "/".toList, [], [], []⟩
      ("1.2.3.4".toList) ("80".toList)
      (by decide) (by decide) (by decide) (by decide) (by decide) (by decide)⟩

/-! ### Dataset loading and the training pipeline
(train_model.py lines 122–201 and convert_to_tflite.py) -/

/-- Lines 129–138 with the loaded rows abstracted as (url, label) pairs:
`X` is `featureExtraction` mapped over the urls in input order.  The
label type is arbitrary: `y = df['label'].values` copies the column
verbatim, with no check that labels lie in {0, 1}. -/
def buildX {α : Type} (rows : List (PyStr × α)) : List (List Nat) :=
  rows.map fun r => featureExtractionL r.1

/-- `y = df['label'].values` (line 130): the label column verbatim. -/
def buildY {α : Type} (rows : List (PyStr × α)) : List α :=
  rows.map fun r => r.2

/-- The `url` column name. -/
def urlCol : PyStr := "url".toList

/-- The `label` column name. -/
def labelCol : PyStr := "label".toList

/-- A tokenised CSV table: header row plus data rows. -/
structure Csv where
  header : List PyStr
  rows : List (List PyStr)
deriving DecidableEq

/-- `pd.read_csv(csv_path, on_bad_lines='skip')` (line 125) on an
already-tokenised table: pandas treats a line with *more* fields than
the header as a bad line and silently skips it; a line with fewer fields
is kept, its missing cells reading as NaN.  Cell values — the labels in
particular — are never validated or dropped. -/
def readCsvSkipBad (csv : Csv) : List (List PyStr) :=
  csv.rows.filter fun r => r.length ≤ csv.header.length

/-- `df[name]` as the list of that column's cells (`none` = NaN for a
missing trailing field); `none` overall is the `KeyError` raised when
the named column does not exist in the header. -/
def dfGetCol? (csv : Csv) (name : PyStr) : Option (List (Option PyStr)) :=
  match csv.header.findIdx? (fun h => h == name) with
  | none => none
  | some j => some ((readCsvSkipBad csv).map fun r => r[j]?)

/-- `featureExtraction` applied to a dataframe cell: a NaN cell makes
`urlparse` raise `TypeError` inside the `try`, caught by the same bare
`except`, so it also yields the zero vector. -/
def featureExtractionCell : Option PyStr → List Nat
  | none => [0, 0, 0, 0, 0, 0, 0, 0, 0]
  | some s => featureExtractionL s

/-- The feature matrix built from the loaded table by lines 129–138:
`featureExtraction` over every cell of the `url` column, in row order;
`none` is the `KeyError` when the `url` column is absent. -/
def datasetX (csv : Csv) : Option (List (List Nat)) :=
  (dfGetCol? csv urlCol).map fun col => col.map featureExtractionCell

/-- A label the dataset contract can parse (`label` is promised to be a
0/1 integer): an optional sign followed by ASCII digits. -/
def isIntLiteral (s : PyStr) : Bool :=
  let t := match s with
    | '+' :: r => r
    | '-' :: r => r
    | r => r
  !t.isEmpty && t.all Char.isDigit

/-- A filesystem: the set of directories and the files with contents. -/
structure FS where
  dirs : List PyStr
  files : List (PyStr × PyStr)
deriving DecidableEq

/-- Python `s.rstrip('/')`. -/
def rstripSlash (s : PyStr) : PyStr :=
  (s.reverse.dropWhile fun c => c = '/').reverse

/-- `os.path.dirname` (posixpath): everything up to and including the
last `/`, with trailing slashes stripped unless the head is all
slashes. -/
def dirname (p : PyStr) : PyStr :=
  let i := match pyRFindC '/' p with
    | none => 0
    | some j => j + 1
  let head := p.take i
  if head.isEmpty || head.all (fun c => c = '/') then head else rstripSlash head

/-- Writing a file at `path`: the parent directory must already exist (a
path without `/` targets the current directory); opening a path inside
an absent directory raises `OSError`.  Both `tf.keras.Model.save` and
`open(path, 'wb')` behave this way — neither creates directories. -/
def fsWrite (fs : FS) (path content : PyStr) : Option FS :=
  if (dirname path).isEmpty || fs.dirs.contains (dirname path) then
    some ⟨fs.dirs, (path, content) :: fs.files⟩
  else none

/-- `os.makedirs(d, exist_ok=True)`. -/
def makedirsStep (fs : FS) (d : PyStr) : FS := ⟨d :: fs.dirs, fs.files⟩

/-- A Python call's visible outcome: a raised exception or a returned
value. -/
inductive Outcome (α : Type) where
  | raised (msg : String)
  | returned (val : α)
deriving DecidableEq

/-- The `History` object returned by `model.fit`. -/
structure History where
  epochs : Nat
deriving DecidableEq

/-- The serialized trained model (contents opaque to the claims). -/
def modelContent : PyStr := "keras-model-bytes".toList

/-- `train_and_save_model(csv_path, model_path)` (lines 122–201), with
the CSV already tokenised, the filesystem explicit, and the outcome of
the `model.fit`/`train_test_split`/`evaluate` library calls abstracted
as `fitResult` (`none` = the library call raised).  The source contains
no `try`/`except`: every failure propagates as a raised exception
(`Outcome.raised`), and the function returns the `history` object (never
`None`) when it completes.  Line order: `df['label']` is read (line 130)
before the `url` loop (line 133); `model.save(model_path)` (line 198) is
the only filesystem write and is not preceded by any `os.makedirs`. -/
def train_and_save_model (csv : Csv) (fs : FS) (model_path : PyStr)
    (fitResult : Option History) : Outcome (Option History) × FS :=
  match dfGetCol? csv labelCol with
  | none => (.raised "KeyError: label", fs)
  | some _y =>
    match dfGetCol? csv urlCol with
    | none => (.raised "KeyError: url", fs)
    | some urls =>
      let _X := urls.map featureExtractionCell
      match fitResult with
      | none => (.raised "fit", fs)
      | some hist =>
        match fsWrite fs model_path modelContent with
        | none => (.raised "OSError: save", fs)
        | some fs2 => (.returned (some hist), fs2)

/-- `model_keras_path` in convert_to_tflite.py. -/
def model_keras_path : PyStr := "model_save/model.keras".toList

/-- `tflite_output_path` in convert_to_tflite.py. -/
def tflite_output_path : PyStr := "model_save/model.tflite".toList

/-- `tf.keras.models.load_model(path)`: the stored bytes, raising when
the file is absent. -/
def load_model (fs : FS) (path : PyStr) : Option PyStr :=
  (fs.files.find? fun f => f.1 == path).map fun f => f.2

/-- The convert_to_tflite.py module body (lines 19–33): load the Keras
model, convert it (`converter.convert()` abstracted as `conv`; `none` =
the conversion raised), then `os.makedirs(..., exist_ok=True)` on the
output directory and write the bytes.  No `try`/`except`: a failed load
or conversion aborts before anything touches the filesystem. -/
def convert_to_tflite (fs : FS) (conv : PyStr → Option PyStr) : Outcome Unit × FS :=
  match load_model fs model_keras_path with
  | none => (.raised "load_model", fs)
  | some m =>
    match conv m with
    | none => (.raised "convert", fs)
    | some bytes =>
      let fs1 := makedirsStep fs (dirname tflite_output_path)
      match fsWrite fs1 tflite_output_path bytes with
      | none => (.raised "OSError: write", fs1)
      | some fs2 => (.returned (), fs2)

/-- The empty filesystem. -/
def fsEmpty : FS := ⟨[], []⟩

/-- The default model path of the `__main__` block. -/
def kerasPath : PyStr := "model_save/model.keras".toList

/-- A well-formed two-row dataset. -/
def goodCsv : Csv :=
  ⟨[urlCol, labelCol],
   [["http://x.com".toList, "1".toList], ["http://y.com".toList, "0".toList]]⟩

/-- A dataset whose header lacks the `label` column. -/
def csvNoLabel : Csv := ⟨[urlCol], [["http://x.com".toList]]⟩

/-! ### Claims C4–C8 -/

/-- C4: the feature matrix preserves input order — its i-th row is
`featureExtraction` of the i-th URL — and the label vector is the label
column verbatim, for labels of any type whatsoever (no {0,1}
validation). -/
theorem dataset_builder_order_and_labels {α : Type} (rows : List (PyStr × α)) (i : Nat) :
    (buildX rows)[i]? = (rows[i]?).map (fun r => featureExtractionL r.1) ∧
    buildY rows = rows.map Prod.snd :=
  ⟨by simp [buildX], rfl⟩

/-- C5 counterexample: a row whose label is not parseable as an integer
is *not* excluded — it stays in the feature matrix, which therefore has
one row, not zero. -/
theorem dataset_bad_label_retained_cex :
    isIntLiteral ("abc".toList) = false ∧
    datasetX ⟨[urlCol, labelCol], [["http://x.com".toList, "abc".toList]]⟩
      = some [featureExtractionL ("http://x.com".toList)] :=
  ⟨by decide, by decide⟩

/-- C5 amended: the load skips only lines with more fields than the
header; every retained row contributes exactly one feature-matrix row
regardless of its label (an unparseable label passes through; a missing
`url` cell yields the zero vector), so the matrix row count equals the
retained row count.  If the `url` column itself is absent the load
raises instead of dropping rows. -/
theorem dataset_matrix_rows_amended (csv : Csv) (j : Nat)
    (h : csv.header.findIdx? (fun hn => hn == urlCol) = some j) :
    datasetX csv
      = some ((readCsvSkipBad csv).map fun r => featureExtractionCell r[j]?) ∧
    ((readCsvSkipBad csv).map fun r => featureExtractionCell r[j]?).length
      = (readCsvSkipBad csv).length := by
  constructor
  · rw [datasetX, dfGetCol?, h]
    simp
  · simp

/-- C5 amended witness: a table with one good row, one bad-label row and
one over-long (skipped) row. -/
theorem dataset_matrix_rows_amended_witness :
    (⟨[urlCol, labelCol],
      [["http://x.com".toList, "1".toList],
       ["http://y.com".toList, "abc".toList],
       ["http://z.com".toList, "1".toList, "extra".toList]]⟩ : Csv).header.findIdx?
        (fun hn => hn == urlCol) = some 0 ∧
    datasetX ⟨[urlCol, labelCol],
      [["http://x.com".toList, "1".toList],
       ["http://y.com".toList, "abc".toList],
       ["http://z.com".toList, "1".toList, "extra".toList]]⟩
      = some ((readCsvSkipBad ⟨[urlCol, labelCol],
          [["http://x.com".toList, "1".toList],
           ["http://y.com".toList, "abc".toList],
           ["http://z.com".toList, "1".toList, "extra".toList]]⟩).map
            fun r => featureExtractionCell r[0]?) :=
  ⟨by decide,
    (dataset_matrix_rows_amended
      ⟨[urlCol, labelCol],
       [["http://x.com".toList, "1".toList],
        ["http://y.com".toList, "abc".toList],
        ["http://z.com".toList, "1".toList, "extra".toList]]⟩ 0 (by decide)).1⟩

/-- C6 counterexample: with the parent directory absent, the save step of
`train_and_save_model` raises `OSError` and leaves the filesystem
untouched — no directory is created and no model file is produced. -/
theorem trainer_save_no_makedirs_cex :
    (train_and_save_model goodCsv fsEmpty kerasPath (some ⟨50⟩)).1
      = Outcome.raised "OSError: save" ∧
    (train_and_save_model goodCsv fsEmpty kerasPath (some ⟨50⟩)).2 = fsEmpty :=
  ⟨by decide, by decide⟩

/-- C6 amended: `train_and_save_model` never creates the parent directory
of the model path; when that directory is absent (and the path has one),
the run fails with a raised exception and the filesystem is unchanged.
Only convert_to_tflite.py calls `os.makedirs`. -/
theorem trainer_save_fails_without_parent (csv : Csv) (fs : FS) (model_path : PyStr)
    (fitResult : Option History)
    (h1 : (dirname model_path).isEmpty = false)
    (h2 : fs.dirs.contains (dirname model_path) = false) :
    (train_and_save_model csv fs model_path fitResult).2 = fs ∧
    ∃ msg, (train_and_save_model csv fs model_path fitResult).1 = Outcome.raised msg := by
  cases hA : dfGetCol? csv labelCol with
  | none => simp [train_and_save_model, hA]
  | some y =>
    cases hB : dfGetCol? csv urlCol with
    | none => simp [train_and_save_model, hA, hB]
    | some urls =>
      cases fitResult with
      | none => simp [train_and_save_model, hA, hB]
      | some hist =>
        have hw : fsWrite fs model_path modelContent = none := by
          rw [fsWrite, if_neg]
          rw [h1, h2]
          simp
        simp [train_and_save_model, hA, hB, hw]

/-- C6 amended witness. -/
theorem trainer_save_fails_without_parent_witness :
    (dirname kerasPath).isEmpty = false ∧
    fsEmpty.dirs.contains (dirname kerasPath) = false ∧
    ((train_and_save_model goodCsv fsEmpty kerasPath (some ⟨50⟩)).2 = fsEmpty ∧
      ∃ msg, (train_and_save_model goodCsv fsEmpty kerasPath (some ⟨50⟩)).1
        = Outcome.raised msg) :=
  ⟨by decide, by decide,
    trainer_save_fails_without_parent goodCsv fsEmpty kerasPath (some ⟨50⟩)
      (by decide) (by decide)⟩

/-- C7 counterexample: on a fatal path (here: missing `label` column) the
function raises; it does not return `None`/an absent result. -/
theorem train_fatal_raises_cex :
    (train_and_save_model csvNoLabel fsEmpty kerasPath (some ⟨50⟩)).1
      = Outcome.raised "KeyError: label" ∧
    (train_and_save_model csvNoLabel fsEmpty kerasPath (some ⟨50⟩)).1
      ≠ Outcome.returned none :=
  ⟨by decide, by decide⟩

/-- C7 amended: every fatal failure path of `train_and_save_model`
propagates as a raised exception; the function never returns an
empty/absent (`None`) result — on completion it returns the history —
so the `__main__` check `if history is None` can never observe a failed
run. -/
theorem train_never_returns_none (csv : Csv) (fs : FS) (model_path : PyStr)
    (fitResult : Option History) :
    (train_and_save_model csv fs model_path fitResult).1 ≠ Outcome.returned none ∧
    ((∃ msg, (train_and_save_model csv fs model_path fitResult).1 = Outcome.raised msg) ∨
      (∃ h, (train_and_save_model csv fs model_path fitResult).1
        = Outcome.returned (some h))) := by
  cases hA : dfGetCol? csv labelCol with
  | none => refine ⟨by simp [train_and_save_model, hA], Or.inl ?_⟩; simp [train_and_save_model, hA]
  | some y =>
    cases hB : dfGetCol? csv urlCol with
    | none => refine ⟨by simp [train_and_save_model, hA, hB], Or.inl ?_⟩; simp [train_and_save_model, hA, hB]
    | some urls =>
      cases fitResult with
      | none => refine ⟨by simp [train_and_save_model, hA, hB], Or.inl ?_⟩; simp [train_and_save_model, hA, hB]
      | some hist =>
        cases hw : fsWrite fs model_path modelContent with
        | none => refine ⟨by simp [train_and_save_model, hA, hB, hw], Or.inl ?_⟩; simp [train_and_save_model, hA, hB, hw]
        | some fs2 => refine ⟨by simp [train_and_save_model, hA, hB, hw], Or.inr ?_⟩; simp [train_and_save_model, hA, hB, hw]

/-- C8: if loading the saved model fails or the conversion fails, the
export run aborts with a raised exception and the filesystem is exactly
as before — no partial or best-effort artifact is written. -/
theorem tflite_no_artifact_on_failure (fs : FS) (conv : PyStr → Option PyStr)
    (h : load_model fs model_keras_path = none ∨
      ∃ m, load_model fs model_keras_path = some m ∧ conv m = none) :
    (convert_to_tflite fs conv).2 = fs ∧
    ∃ msg, (convert_to_tflite fs conv).1 = Outcome.raised msg := by
  rcases h with h | ⟨m, hm, hc⟩
  · simp [convert_to_tflite, h]
  · simp [convert_to_tflite, hm, hc]

/-- C8 witness: exporting from an empty filesystem (no saved model). -/
theorem tflite_no_artifact_on_failure_witness :
    load_model fsEmpty model_keras_path = none ∧
    ((convert_to_tflite fsEmpty (fun m => some m)).2 = fsEmpty ∧
      ∃ msg, (convert_to_tflite fsEmpty (fun m => some m)).1 = Outcome.raised msg) :=
  ⟨by decide,
    tflite_no_artifact_on_failure fsEmpty (fun m => some m) (Or.inl (by decide))⟩

end UrlPhish
